import Mathlib

/-!
Verification of the Agentic Retrieval-Refinement Loop of the `assistant`
repository (backend/agents/agentic_rag.py and backend/agents/qa_agent.py),
as a shallow embedding in Lean 4.

Conventions of the embedding:
* Python strings are Lean `String`s; the Python string methods used by the
  source (`strip`, `split`, `startswith`, `endswith`, slicing, `lower`,
  `join`, `in`) are re-implemented below by structural recursion over
  character lists so that closed runs evaluate inside the kernel.
* Dynamically-typed JSON values produced by `json.loads` are modelled by the
  inductive type `Json`; `json.loads` itself is modelled by the fuel-based
  recursive-descent parser `jsonLoads` (integers only; the source never
  relies on fractional numbers).
* The two external collaborators (the `generate_answer` Generator and the
  retriever returned by `get_retriever()`) are modelled as an environment
  `Env` of oracles; stateful execution (number of Generator calls made so
  far, the instrumentation trace of external calls) is threaded through the
  state monad `M` below.  Python exceptions are modelled by the
  `Except String` layer of `M`; a `try/except Exception` block is `attempt`.
-/

/-- Left-trim of a character list: drop leading whitespace. -/
def trimLeftChars : List Char → List Char
  | [] => []
  | c :: cs => if c.isWhitespace then trimLeftChars cs else c :: cs

/-- Python `str.strip()`: remove leading and trailing whitespace. -/
def pyStrip (s : String) : String :=
  String.mk ((trimLeftChars ((trimLeftChars s.toList.reverse)).reverse))

/-- Python slicing `s[n:]`: drop the first `n` characters. -/
def pyDrop (s : String) (n : Nat) : String :=
  String.mk (s.toList.drop n)

/-- Python slicing `s[:-n]`: drop the last `n` characters. -/
def pyDropRight (s : String) (n : Nat) : String :=
  String.mk (s.toList.take (s.toList.length - n))

/-- Python slicing `s[:n]`: take the first `n` characters. -/
def pyTake (s : String) (n : Nat) : String :=
  String.mk (s.toList.take n)

/-- Python `s.startswith(pre)`. -/
def pyStartsWith (s pre : String) : Bool :=
  pre.toList.isPrefixOf s.toList

/-- Python `s.endswith(suf)`. -/
def pyEndsWith (s suf : String) : Bool :=
  suf.toList.reverse.isPrefixOf s.toList.reverse

/-- Python `s.lower()`. -/
def pyLower (s : String) : String :=
  String.mk (s.toList.map Char.toLower)

/-- Python `pat in s` (substring containment). -/
def strContains (s pat : String) : Bool :=
  (List.range (s.toList.length + 1)).any (fun i => pat.toList.isPrefixOf (s.toList.drop i))

/-- Worker for `pySplit`: split a character list on a (non-empty) separator,
with fuel for kernel-reducible termination. -/
def splitChars (sep : List Char) : Nat → List Char → List Char → List (List Char)
  | 0, _, acc => [acc.reverse]
  | _ + 1, [], acc => [acc.reverse]
  | fuel + 1, c :: cs, acc =>
      if sep.isPrefixOf (c :: cs) then
        acc.reverse :: splitChars sep fuel ((c :: cs).drop sep.length) []
      else
        splitChars sep fuel cs (c :: acc)

/-- Python `s.split(sep)` for a non-empty separator. -/
def pySplit (s sep : String) : List String :=
  (splitChars sep.toList (s.toList.length + 1) s.toList []).map String.mk

/-- Python `sep.join(xs)`. -/
def pyJoin (sep : String) : List String → String
  | [] => ""
  | [x] => x
  | x :: y :: xs => x ++ sep ++ pyJoin sep (y :: xs)

/-- Dynamically-typed JSON values, the possible results of Python
`json.loads` on the model output strings of this program. -/
inductive Json where
  | null
  | bool (b : Bool)
  | num (n : Int)
  | str (s : String)
  | arr (xs : List Json)
  | obj (kvs : List (String × Json))

/-- `isinstance(j, str)` for `Json` values. -/
def isJsonStr : Json → Bool
  | Json.str _ => true
  | _ => false

mutual

/-- Python `repr` of a `Json` value (the form used by f-string interpolation
of a list, e.g. in the reasoning-trace line for planned sub-queries). -/
def pyRepr : Json → String
  | Json.null => "None"
  | Json.bool true => "True"
  | Json.bool false => "False"
  | Json.num n => toString n
  | Json.str s => "\x27" ++ s ++ "\x27"
  | Json.arr xs => "[" ++ pyJoin ", " (pyReprList xs) ++ "]"
  | Json.obj kvs => "\x7b" ++ pyJoin ", " (pyReprKVs kvs) ++ "\x7d"

/-- `repr` of each element of a JSON array. -/
def pyReprList : List Json → List String
  | [] => []
  | j :: js => pyRepr j :: pyReprList js

/-- `repr` of each key/value pair of a JSON object. -/
def pyReprKVs : List (String × Json) → List String
  | [] => []
  | (k, v) :: kvs => ("\x27" ++ k ++ "\x27: " ++ pyRepr v) :: pyReprKVs kvs

end

/-- Python `str()` of a `Json` value (f-string interpolation of a single
value: a `str` prints verbatim, anything else prints as its `repr`). -/
def pyStr : Json → String
  | Json.str s => s
  | j => pyRepr j

/-- Python truthiness (`if x:`) of a `Json` value. -/
def pyTruthy : Json → Bool
  | Json.null => false
  | Json.bool b => b
  | Json.num n => !(n == 0)
  | Json.str s => !(s == "")
  | Json.arr xs => !xs.isEmpty
  | Json.obj kvs => !kvs.isEmpty

/-- Lookup of a key in a parsed JSON object; Python dicts keep the last
binding when `json.loads` sees a duplicated key, so the last match wins. -/
def lookupJson : List (String × Json) → String → Option Json
  | [], _ => none
  | (k, v) :: rest, key =>
      match lookupJson rest key with
      | some v' => some v'
      | none => if k = key then some v else none

/-- Skip JSON whitespace. -/
def skipWs : List Char → List Char
  | [] => []
  | c :: cs => if c = ' ' ∨ c = '\t' ∨ c = '\n' ∨ c = '\r' then skipWs cs else c :: cs

/-- Parse the remainder of a JSON string literal (after the opening quote),
handling the common escapes. -/
def parseStrChars : List Char → List Char → Option (String × List Char)
  | _, [] => none
  | acc, '"' :: cs => some (String.mk acc.reverse, cs)
  | acc, '\\' :: 'n' :: cs => parseStrChars ('\n' :: acc) cs
  | acc, '\\' :: 't' :: cs => parseStrChars ('\t' :: acc) cs
  | acc, '\\' :: 'r' :: cs => parseStrChars ('\r' :: acc) cs
  | acc, '\\' :: c :: cs => parseStrChars (c :: acc) cs
  | _, '\\' :: [] => none
  | acc, c :: cs => parseStrChars (c :: acc) cs

/-- Parse a run of decimal digits. -/
def parseDigits : List Char → List Char → (List Char × List Char)
  | acc, c :: cs => if c.isDigit then parseDigits (c :: acc) cs else (acc.reverse, c :: cs)
  | acc, [] => (acc.reverse, [])

/-- Digits to a natural number. -/
def digitsToNat : Nat → List Char → Nat
  | n, [] => n
  | n, c :: cs => digitsToNat (n * 10 + (c.toNat - '0'.toNat)) cs

mutual

/-- Fuel-based recursive-descent JSON value parser (model of the grammar
`json.loads` accepts, restricted to integer numerals). -/
def parseJ : Nat → List Char → Option (Json × List Char)
  | 0, _ => none
  | fuel + 1, cs =>
      match skipWs cs with
      | [] => none
      | '"' :: rest => match parseStrChars [] rest with
          | some (s, r) => some (Json.str s, r)
          | none => none
      | '[' :: rest =>
          (match skipWs rest with
           | ']' :: r => some (Json.arr [], r)
           | other => parseArrRest fuel other [])
      | '\x7b' :: rest =>
          (match skipWs rest with
           | '\x7d' :: r => some (Json.obj [], r)
           | other => parseObjRest fuel other [])
      | '-' :: rest =>
          (match parseDigits [] rest with
           | ([], _) => none
           | (ds, r) => some (Json.num (-(digitsToNat 0 ds : Int)), r))
      | c :: rest =>
          if c = 'n' then
            (if ['u','l','l'].isPrefixOf rest then some (Json.null, rest.drop 3) else none)
          else if c = 't' then
            (if ['r','u','e'].isPrefixOf rest then some (Json.bool true, rest.drop 3) else none)
          else if c = 'f' then
            (if ['a','l','s','e'].isPrefixOf rest then some (Json.bool false, rest.drop 4) else none)
          else if c.isDigit then
            (match parseDigits [] (c :: rest) with
             | ([], _) => none
             | (ds, r) => some (Json.num (digitsToNat 0 ds : Int), r))
          else none

/-- Parse the elements of a non-empty JSON array, after the opening bracket. -/
def parseArrRest : Nat → List Char → List Json → Option (Json × List Char)
  | 0, _, _ => none
  | fuel + 1, cs, acc =>
      match parseJ fuel cs with
      | none => none
      | some (j, r) =>
          match skipWs r with
          | ',' :: r' => parseArrRest fuel r' (j :: acc)
          | ']' :: r' => some (Json.arr (j :: acc).reverse, r')
          | _ => none

/-- Parse the members of a non-empty JSON object, after the opening brace. -/
def parseObjRest : Nat → List Char → List (String × Json) → Option (Json × List Char)
  | 0, _, _ => none
  | fuel + 1, cs, acc =>
      match skipWs cs with
      | '"' :: rest =>
          (match parseStrChars [] rest with
           | none => none
           | some (k, r) =>
               match skipWs r with
               | ':' :: r' =>
                   (match parseJ fuel r' with
                    | none => none
                    | some (v, r'') =>
                        match skipWs r'' with
                        | ',' :: r3 => parseObjRest fuel r3 ((k, v) :: acc)
                        | '\x7d' :: r3 => some (Json.obj ((k, v) :: acc).reverse, r3)
                        | _ => none)
               | _ => none)
      | _ => none

end

/-- Model of Python `json.loads`: parse one JSON value and require that only
whitespace remains; `none` models a raised `json.JSONDecodeError`. -/
def jsonLoads (s : String) : Option Json :=
  match parseJ (2 * s.toList.length + 4) s.toList with
  | some (j, rest) => if (skipWs rest).isEmpty then some j else none
  | none => none

/-- A retrieved passage: the model of a LangChain document, of which the
source uses only `page_content`. -/
structure Doc where
  page_content : String

/-- Instrumentation events recording the external calls an execution makes:
a Generator call from the Planner, a `retriever.invoke(query)` call, a
Generator call producing a candidate answer at a given loop iteration index,
and a Generator call from the Evaluator. -/
inductive Event where
  | planGen
  | retrieve (q : Json)
  | answerGen (iter : Nat)
  | evalGen

/-- The two external collaborators, as oracles.  `gen n ctx q` is the
outcome of the `n`-th Generator call of the run when invoked with context
`ctx` and question `q` (`Except.error` models a raised exception);
`ret q` is the outcome of `retriever.invoke(q)` (the argument is a `Json`
value because the source passes planner-produced values through unchecked). -/
structure Env where
  gen : Nat → String → String → Except String String
  ret : Json → Except String (List Doc)

/-- Execution state: how many Generator calls were made so far, and the
instrumentation trace of external calls. -/
structure St where
  nGen : Nat
  events : List Event

/-- The execution monad: environment plus state plus Python exceptions.
The state is threaded through exceptions (side effects before a raise
persist), matching Python semantics. -/
def M (α : Type) : Type := Env → St → Except String α × St

/-- Monadic return. -/
def M.pure (a : α) : M α := fun _ s => (Except.ok a, s)

/-- Monadic bind. -/
def M.bind (x : M α) (f : α → M β) : M β := fun env s =>
  match x env s with
  | (Except.ok a, s') => f a env s'
  | (Except.error e, s') => (Except.error e, s')

instance : Bind M := ⟨@M.bind⟩

instance : Pure M := ⟨@M.pure⟩

/-- A Python `try: x except Exception as e: h e` block. -/
def attempt (x : M α) (h : String → M α) : M α := fun env s =>
  match x env s with
  | (Except.ok a, s') => (Except.ok a, s')
  | (Except.error e, s') => h e env s'

/-- Raise an exception. -/
def raiseM (msg : String) : M α := fun _ s => (Except.error msg, s)

/-- A call to the Generator (`generate_answer(context=..., question=...)`),
consuming the next call index and recording the given event. -/
def callGenerator (context question : String) (ev : Event) : M String := fun env s =>
  (env.gen s.nGen context question, ⟨s.nGen + 1, s.events ++ [ev]⟩)

/-- A call to `self.retriever.invoke(query)`, recording its event. -/
def callRetriever (query : Json) : M (List Doc) := fun env s =>
  (env.ret query, ⟨s.nGen, s.events ++ [Event.retrieve query]⟩)

/-- Python `x.get(key, default)` on a dynamically-typed value: succeeds on a
dict, raises `AttributeError` on anything else (lists, strings, numbers and
booleans have no `get` method). -/
def pyGet (j : Json) (key : String) (dflt : Json) : M Json :=
  match j with
  | Json.obj kvs => M.pure ((lookupJson kvs key).getD dflt)
  | _ => raiseM "AttributeError: get"

/-- `self.max_iterations`, set to 3 in `AgenticRAG.__init__` and never
changed. -/
def max_iterations : Nat := 3

/-- The fixed context string of the planning Generator call. -/
def planning_context : String := "You are a query planning assistant."

/-- The planning prompt f-string of `_plan_query_strategy`. -/
def planning_prompt (question : String) : String :=
  "\nAnalyze this question and break it into 2-3 specific sub-queries for retrieving information.\n\nQuestion: "
  ++ question ++
  "\n\nReturn ONLY a JSON array of sub-queries:\n[\"sub-query 1\", \"sub-query 2\", \"sub-query 3\"]\n\nExamples:\nQuestion: \"How do I build a neural network for image classification?\"\nOutput: [\"neural network architecture basics\", \"image classification datasets\", \"training neural networks\"]\n\nQuestion: \"Compare MapReduce and Spark\"\nOutput: [\"MapReduce architecture and features\", \"Apache Spark architecture and features\", \"MapReduce vs Spark performance\"]\n"

/-- The evaluation prompt f-string of `_check_answer_quality` (the doubled
braces of the Python source are literal braces). -/
def evaluation_prompt (question answer : String) : String :=
  "\nEvaluate if this answer sufficiently addresses the question.\n\nQuestion: "
  ++ question ++
  "\n\nAnswer: " ++ answer ++
  "\n\nRespond with JSON:\n\x7b\n  \"sufficient\": true/false,\n  \"missing_info\": \"what information is missing (if any)\",\n  \"refinement_query\": \"a more specific query to get missing info (if needed)\"\n\x7d\n"

/-- The response clean-up both the Planner and the Evaluator perform before
`json.loads`: strip, remove a leading ```json or ``` fence and a trailing
``` fence, strip again. -/
def cleanResponse (response : String) : String :=
  let response := pyStrip response
  let response := if pyStartsWith response "```json" then pyDrop response 7 else response
  let response := if pyStartsWith response "```" then pyDrop response 3 else response
  let response := if pyEndsWith response "```" then pyDropRight response 3 else response
  pyStrip response

/-- `AgenticRAG._plan_query_strategy`: ask the Generator for a JSON array of
sub-queries; return the parsed value if it is a list (`isinstance(x, list)`),
`[question]` if it parsed to a non-list, and `[question]` if anything in the
try block raised (Generator failure or `json.loads` failure). -/
def plan_query_strategy (question : String) : M (List Json) :=
  attempt
    (M.bind (callGenerator planning_context (planning_prompt question) Event.planGen)
      (fun response =>
        match jsonLoads (cleanResponse response) with
        | some (Json.arr sub_queries) => M.pure sub_queries
        | some _ => M.pure [Json.str question]
        | none => raiseM "json.JSONDecodeError"))
    (fun _ => M.pure [Json.str question])

/-- The per-query deduplication loop of `_retrieve_with_multiple_queries`:
`for doc in docs[:k]` (the truncation is applied by the caller), append each
doc whose stripped `page_content` has not been seen. -/
def dedup_fold : List Doc → List Doc → List String → List Doc × List String
  | [], all_docs, seen => (all_docs, seen)
  | doc :: docs, all_docs, seen =>
      let content := pyStrip doc.page_content
      if content ∈ seen then dedup_fold docs all_docs seen
      else dedup_fold docs (all_docs ++ [doc]) (seen ++ [content])

/-- The query loop of `_retrieve_with_multiple_queries`: for each query,
`try` to retrieve and deduplicate its first `k` documents, swallowing any
retrieval failure and continuing with the next query. -/
def gather_docs (k : Nat) : List Json → List Doc → List String → M (List Doc × List String)
  | [], all_docs, seen => M.pure (all_docs, seen)
  | query :: rest, all_docs, seen =>
      M.bind
        (attempt
          (M.bind (callRetriever query)
            (fun docs => M.pure (dedup_fold (docs.take k) all_docs seen)))
          (fun _ => M.pure (all_docs, seen)))
        (fun p => gather_docs k rest p.1 p.2)

/-- The `"Source {i+1}:\n{doc.page_content}"` blocks of the combined
context, over at most the first 10 unique documents. -/
def source_blocks (all_docs : List Doc) : List String :=
  (all_docs.take 10).enum.map (fun p => "Source " ++ toString (p.1 + 1) ++ ":\n" ++ p.2.page_content)

/-- The combined context string of `_retrieve_with_multiple_queries`. -/
def combined_context (all_docs : List Doc) : String :=
  pyJoin "\n\n---\n\n" (source_blocks all_docs)

/-- `AgenticRAG._retrieve_with_multiple_queries`: retrieve with every query,
deduplicate across all of them, return `""` when nothing survived and
otherwise the source-labelled join of the first 10 unique documents. -/
def retrieve_with_multiple_queries (queries : List Json) (k : Nat) : M String :=
  M.bind (gather_docs k queries [] [])
    (fun p =>
      if p.1.isEmpty then M.pure ""
      else M.pure (combined_context p.1))

/-- The fail-open verdict `_check_answer_quality` returns whenever its try
block raises. -/
def defaultVerdict : Json :=
  Json.obj [("sufficient", Json.bool true), ("missing_info", Json.str ""), ("refinement_query", Json.str "")]

/-- `AgenticRAG._check_answer_quality`: ask the Generator (on the first 500
characters of the context) for a JSON verdict; any Generator failure or
parse failure yields `defaultVerdict`.  The parsed value is returned without
any shape validation. -/
def check_answer_quality (question answer context : String) : M Json :=
  attempt
    (M.bind (callGenerator (pyTake context 500) (evaluation_prompt question answer) Event.evalGen)
      (fun response =>
        match jsonLoads (cleanResponse response) with
        | some evaluation => M.pure evaluation
        | none => raiseM "json.JSONDecodeError"))
    (fun _ => M.pure defaultVerdict)

/-- The generation/evaluation/refinement loop of `AgenticRAG.answer`
(`for iteration in range(self.max_iterations)`), returning the final
answer, the final context, the last executed iteration index and the
accumulated reasoning trace. -/
def run_iterations (question : String) :
    String → String → Nat → List String → List Nat → M (String × String × Nat × List String)
  | answer, context, lastIter, trace, [] => M.pure (answer, context, lastIter, trace)
  | _, context, _, trace, iteration :: rest =>
      M.bind (M.pure (trace ++ ["💭 Generating answer (iteration " ++ toString (iteration + 1) ++ ")..."]))
        (fun trace =>
          M.bind (callGenerator context question (Event.answerGen iteration))
            (fun answer =>
              if iteration < max_iterations - 1 then
                M.bind (M.pure (trace ++ ["🔎 Evaluating answer quality..."]))
                  (fun trace =>
                    M.bind (check_answer_quality question answer context)
                      (fun evaluation =>
                        M.bind (pyGet evaluation "sufficient" (Json.bool true))
                          (fun suff =>
                            if pyTruthy suff then
                              M.pure (answer, context, iteration, trace ++ ["✅ Answer is sufficient"])
                            else
                              M.bind (pyGet evaluation "missing_info" (Json.str "unknown"))
                                (fun mi =>
                                  M.bind (M.pure (trace ++ ["⚠️ Missing info: " ++ pyStr mi]))
                                    (fun trace =>
                                      M.bind (pyGet evaluation "refinement_query" (Json.str ""))
                                        (fun rq =>
                                          if pyTruthy rq then
                                            M.bind (M.pure (trace ++ ["🔄 Refining with query: " ++ pyStr rq]))
                                              (fun trace =>
                                                M.bind (retrieve_with_multiple_queries [rq] 2)
                                                  (fun additional_context =>
                                                    run_iterations question answer
                                                      (context ++ "\n\n---\n\n" ++ additional_context)
                                                      iteration trace rest))
                                          else
                                            run_iterations question answer context iteration trace rest))))))
              else
                run_iterations question answer context iteration trace rest))

/-- The fixed not-found answer of the no-context short-circuit. -/
def notFoundMsg : String :=
  "I couldn\x27t find relevant information in the syllabus for this question."

/-- The Python values appearing in the result dict of `AgenticRAG.answer`. -/
inductive PyObj where
  | str (s : String)
  | int (n : Nat)
  | strList (xs : List String)
  | jsonList (xs : List Json)
  | none

/-- Key lookup in the (model of the) returned Python dict. -/
def lookupKey : List (String × PyObj) → String → Option PyObj
  | [], _ => Option.none
  | (k, v) :: rest, key => if k = key then some v else lookupKey rest key

/-- The result dict built on the generation path of `AgenticRAG.answer`
(source lines 215-221); note `sources_used` splits the final context on the
bare substring `"---"`. -/
def final_payload (answer ctxF : String) (iteration : Nat) (trace : List String)
    (sub_queries : List Json) (use_planning : Bool) : List (String × PyObj) :=
  [("answer", PyObj.str answer),
   ("sources_used", PyObj.int ((pySplit ctxF "---").length)),
   ("reasoning_trace", PyObj.strList trace),
   ("iterations", PyObj.int (iteration + 1)),
   ("sub_queries", if use_planning then PyObj.jsonList sub_queries else PyObj.none)]

/-- The result dict of the no-context short-circuit of `AgenticRAG.answer`
(source lines 171-176); it has no `sub_queries` key. -/
def short_payload (trace : List String) : List (String × PyObj) :=
  [("answer", PyObj.str notFoundMsg),
   ("sources_used", PyObj.int 0),
   ("reasoning_trace", PyObj.strList trace),
   ("iterations", PyObj.int 0)]

/-- `AgenticRAG.answer`: plan (or not), retrieve with every sub-query,
short-circuit when the merged context is empty, and otherwise run the
bounded generation/evaluation/refinement loop. -/
def answer (question : String) (use_planning : Bool) : M (List (String × PyObj)) :=
  M.bind
    (if use_planning then
      M.bind (plan_query_strategy question)
        (fun sub_queries =>
          M.pure (sub_queries,
            ["🧠 Planning retrieval strategy...",
             "📋 Sub-queries: " ++ pyStr (Json.arr sub_queries)]))
    else
      M.pure ([Json.str question], ["📋 Using direct query"]))
    (fun pr =>
      M.bind (M.pure (pr.2 ++ ["🔍 Retrieving information..."]))
        (fun trace =>
          M.bind (retrieve_with_multiple_queries pr.1 3)
            (fun context =>
              if context = "" then
                M.pure (short_payload trace)
              else
                M.bind (M.pure (trace ++ ["✅ Retrieved information from multiple sources"]))
                  (fun trace =>
                    M.bind (run_iterations question "" context 0 trace (List.range max_iterations))
                      (fun r =>
                        M.pure (final_payload r.1 r.2.1 r.2.2.1
                          (r.2.2.2 ++ ["✅ Final answer generated"]) pr.1 use_planning))))))

/-- The initial state of a fresh `AgenticRAG.answer` call. -/
def init_st : St := ⟨0, []⟩

/-- One complete run of `AgenticRAG.answer` from a fresh state. -/
def runAnswer (env : Env) (question : String) (use_planning : Bool) :
    Except String (List (String × PyObj)) × St :=
  answer question use_planning env init_st

/-- The user-message content `generate_answer` of `qa_agent.py` builds from
its context and question. -/
def user_content (context question : String) : String :=
  "\nSYLLABUS CONTEXT:\n" ++ context ++ "\n\nQUESTION:\n" ++ question ++ "\n"

/-- The retry loop of `qa_agent.generate_answer`.  The client oracle maps
the attempt index and the user content to either the completion text or a
raised exception's message; every `except` branch returns a diagnostic
string, and falling off the loop returns the could-not-connect message. -/
def generate_answer_go (client : Nat → String → Except String String)
    (content : String) (max_retries : Nat) : List Nat → Except String String
  | [] => Except.ok "⚠️ Could not connect to AI model. Please try again in a moment."
  | attempt_idx :: rest =>
      match client attempt_idx content with
      | Except.ok response => Except.ok (pyStrip response)
      | Except.error e =>
          if strContains (pyLower e) "loading" ∨ strContains (pyLower e) "warming" ∨ strContains (pyLower e) "not ready" then
            (if attempt_idx < max_retries - 1 then
              generate_answer_go client content max_retries rest
            else
              Except.ok "⚠️ The AI model is currently loading. Please wait 30 seconds and try again.")
          else if strContains (pyLower e) "rate limit" then
            Except.ok "⚠️ Rate limit reached. Please wait a moment and try again."
          else
            Except.ok ("⚠️ Unable to generate response. Error: " ++ pyTake e 100)

/-- `qa_agent.generate_answer(context, question, max_retries)`: the concrete
Generator, over an abstract inference client. -/
def generate_answer (client : Nat → String → Except String String)
    (context question : String) (max_retries : Nat) : Except String String :=
  generate_answer_go client (user_content context question) max_retries (List.range max_retries)

/-- Pure characterization of the Planner result: the parsed Generator output
when the cleaned response parses as a JSON array, and `[question]` in every
other case (Generator failure, parse failure, or a non-array parse). -/
def planResult (env : Env) (n : Nat) (question : String) : List Json :=
  match env.gen n planning_context (planning_prompt question) with
  | Except.error _ => [Json.str question]
  | Except.ok r =>
      match jsonLoads (cleanResponse r) with
      | some (Json.arr xs) => xs
      | _ => [Json.str question]

/-- Pure characterization of the Evaluator result: the parsed JSON value of
the cleaned Generator output, or `defaultVerdict` when the Generator raised
or the output did not parse. -/
def evalResult (env : Env) (n : Nat) (question answer context : String) : Json :=
  match env.gen n (pyTake context 500) (evaluation_prompt question answer) with
  | Except.error _ => defaultVerdict
  | Except.ok r =>
      match jsonLoads (cleanResponse r) with
      | some j => j
      | none => defaultVerdict

/-- The documents one query contributes before deduplication: the first `k`
retrieved documents, or none when retrieval raised. -/
def retrievedDocs (env : Env) (k : Nat) (q : Json) : List Doc :=
  match env.ret q with
  | Except.ok docs => docs.take k
  | Except.error _ => []

/-- The deduplicated document list a full aggregation call produces. -/
def mergedDocs (env : Env) (k : Nat) (queries : List Json) : List Doc :=
  (dedup_fold (queries.flatMap (retrievedDocs env k)) [] []).1

/-- The normalized (stripped) content a document is deduplicated on. -/
def docKey (d : Doc) : String := pyStrip d.page_content

/-- Recognizer for answer-generation Generator calls. -/
def isAG : Event → Bool
  | Event.answerGen _ => true
  | _ => false

/-- Number of answer-generation Generator calls in an event trace. -/
def countAG (l : List Event) : Nat := l.countP isAG

/-- Environment whose retriever always finds nothing. -/
def envRetEmpty : Env := ⟨fun _ _ _ => Except.ok "x", fun _ => Except.ok []⟩

/-- Environment with one document and a first evaluation that says sufficient. -/
def envB : Env :=
  ⟨fun n _ _ => if n = 1 then Except.ok "\x7b\"sufficient\": true\x7d" else Except.ok "ans",
   fun _ => Except.ok [⟨"doc"⟩]⟩

/-- Environment whose Generator answers the planning prompt with a JSON array of numbers. -/
def envC2 : Env := ⟨fun _ _ _ => Except.ok "[1, 2]", fun _ => Except.ok []⟩

/-- Environment whose Generator returns unparsable text. -/
def envC3 : Env := ⟨fun _ _ _ => Except.ok "not json", fun _ => Except.ok []⟩

/-- Environment whose single retrieved passage contains the bare substring three-dashes. -/
def envC6 : Env :=
  ⟨fun n _ _ => if n = 1 then Except.ok "\x7b\"sufficient\": true\x7d" else Except.ok "ans",
   fun _ => Except.ok [⟨"a---b"⟩]⟩

/-- Environment whose Evaluator always says insufficient with an empty refinement query. -/
def envC8 : Env :=
  ⟨fun n _ _ => if n = 1 ∨ n = 3 then
      Except.ok "\x7b\"sufficient\": false, \"refinement_query\": \"\"\x7d"
    else Except.ok "ans",
   fun _ => Except.ok [⟨"doc"⟩]⟩

/-- Environment whose Evaluator Generator call returns the JSON array "[1]". -/
def envC9 : Env :=
  ⟨fun n _ _ => if n = 1 then Except.ok "[1]" else Except.ok "ans",
   fun _ => Except.ok [⟨"doc"⟩]⟩

/-- Project a successful result out of an `Except`, with a default. -/
def okOrElse (x : Except String (List (String × PyObj))) : List (String × PyObj) :=
  match x with
  | Except.ok r => r
  | Except.error _ => []

/-- The result dict of the `envRetEmpty` planning run (short-circuit path). -/
def C4res : List (String × PyObj) := okOrElse (runAnswer envRetEmpty "q" true).1

/-- The result dict of the `envB` direct run (generation path). -/
def C4wres : List (String × PyObj) := okOrElse (runAnswer envB "q" false).1

/-- The result dict of the `envC6` direct run (generation path). -/
def C6res : List (String × PyObj) := okOrElse (runAnswer envC6 "q" false).1

/-- The reasoning trace of the `envC6` direct run. -/
def C6trace : List String :=
  ["📋 Using direct query", "🔍 Retrieving information...",
   "✅ Retrieved information from multiple sources",
   "💭 Generating answer (iteration 1)...",
   "🔎 Evaluating answer quality...",
   "✅ Answer is sufficient",
   "✅ Final answer generated"]

/-- Unfolding rule for `M.bind`. -/
theorem bind_apply (x : M α) (f : α → M β) (env : Env) (s : St) :
    M.bind x f env s = match x env s with
      | (Except.ok a, s') => f a env s'
      | (Except.error e, s') => (Except.error e, s') := rfl

/-- Unfolding rule for `attempt`. -/
theorem attempt_apply (x : M α) (h : String → M α) (env : Env) (s : St) :
    attempt x h env s = match x env s with
      | (Except.ok a, s') => (Except.ok a, s')
      | (Except.error e, s') => h e env s' := rfl

/-- The Planner always succeeds, makes exactly one Generator call, and
returns `planResult`. -/
theorem plan_run (env : Env) (st : St) (q : String) :
    plan_query_strategy q env st =
      (Except.ok (planResult env st.nGen q), ⟨st.nGen + 1, st.events ++ [Event.planGen]⟩) := by
  unfold plan_query_strategy planResult attempt callGenerator
  rw [bind_apply]
  cases hg : env.gen st.nGen planning_context (planning_prompt q) with
  | error e => rfl
  | ok r =>
      cases hj : jsonLoads (cleanResponse r) with
      | none => simp [hj, raiseM, M.pure]
      | some j => cases j <;> simp [hj, M.pure]

/-- The Evaluator always succeeds, makes exactly one Generator call, and
returns `evalResult`. -/
theorem eval_run (env : Env) (st : St) (q a c : String) :
    check_answer_quality q a c env st =
      (Except.ok (evalResult env st.nGen q a c), ⟨st.nGen + 1, st.events ++ [Event.evalGen]⟩) := by
  unfold check_answer_quality evalResult attempt callGenerator
  rw [bind_apply]
  cases hg : env.gen st.nGen (pyTake c 500) (evaluation_prompt q a) with
  | error e => rfl
  | ok r =>
      cases hj : jsonLoads (cleanResponse r) with
      | none => simp [hj, raiseM, M.pure]
      | some j => simp [hj, M.pure]

/-- `dedup_fold` processes a concatenation in two stages. -/
theorem dedup_fold_append (l₁ l₂ : List Doc) (acc : List Doc) (seen : List String) :
    dedup_fold (l₁ ++ l₂) acc seen =
      dedup_fold l₂ (dedup_fold l₁ acc seen).1 (dedup_fold l₁ acc seen).2 := by
  induction l₁ generalizing acc seen with
  | nil => rfl
  | cons d ds ih =>
      rw [List.cons_append]
      simp only [dedup_fold]
      by_cases h : pyStrip d.page_content ∈ seen <;> simp [h, ih]

/-- The retrieval aggregation loop always succeeds, records one retrieval
event per query, and folds every query's contribution through the shared
deduplication state. -/
theorem gather_run (env : Env) (k : Nat) :
    ∀ (queries : List Json) (acc : List Doc) (seen : List String) (st : St),
      gather_docs k queries acc seen env st =
        (Except.ok (dedup_fold (queries.flatMap (retrievedDocs env k)) acc seen),
         ⟨st.nGen, st.events ++ queries.map Event.retrieve⟩) := by
  intro queries
  induction queries with
  | nil => intro acc seen st; simp [gather_docs, dedup_fold, M.pure]
  | cons q rest ih =>
      intro acc seen st
      unfold gather_docs
      rw [bind_apply, attempt_apply, bind_apply]
      unfold callRetriever
      cases hr : env.ret q with
      | ok docs =>
          simp only [M.pure, ih, List.flatMap_cons, dedup_fold_append, retrievedDocs, hr,
            List.map_cons, List.append_assoc, List.singleton_append]
      | error e =>
          simp only [M.pure, ih, List.flatMap_cons, dedup_fold_append, retrievedDocs, hr,
            List.map_cons, List.append_assoc, List.singleton_append, dedup_fold]

/-- `_retrieve_with_multiple_queries` always succeeds and returns the
combined context over `mergedDocs` (empty string when nothing survived). -/
theorem retrieve_run (env : Env) (st : St) (queries : List Json) (k : Nat) :
    retrieve_with_multiple_queries queries k env st =
      (Except.ok (if (mergedDocs env k queries).isEmpty then ""
                  else combined_context (mergedDocs env k queries)),
       ⟨st.nGen, st.events ++ queries.map Event.retrieve⟩) := by
  unfold retrieve_with_multiple_queries mergedDocs
  rw [bind_apply, gather_run env k queries [] [] st]
  by_cases h : (dedup_fold (queries.flatMap (retrievedDocs env k)) [] []).1.isEmpty <;>
    simp [h, M.pure]

/-- Deduplication only appends to the accumulator, and what it appends is a
subsequence of the processed stream (order of first occurrence). -/
theorem dedup_fold_sublist (l : List Doc) :
    ∀ (acc : List Doc) (seen : List String),
      ∃ l', (dedup_fold l acc seen).1 = acc ++ l' ∧ List.Sublist l' l := by
  induction l with
  | nil => intro acc seen; exact ⟨[], by simp [dedup_fold], List.Sublist.refl []⟩
  | cons d ds ih =>
      intro acc seen
      simp only [dedup_fold]
      by_cases h : pyStrip d.page_content ∈ seen
      · simp only [h, if_true]
        obtain ⟨l', h1, h2⟩ := ih acc seen
        exact ⟨l', h1, List.Sublist.cons d h2⟩
      · simp only [h, if_false]
        obtain ⟨l', h1, h2⟩ := ih (acc ++ [d]) (seen ++ [pyStrip d.page_content])
        exact ⟨d :: l', by simpa using h1, List.Sublist.cons₂ d h2⟩

/-- Invariant: when the seen set is exactly the keys of the accumulator, it
stays so through deduplication. -/
theorem dedup_fold_seen_eq (l : List Doc) :
    ∀ (acc : List Doc) (seen : List String), seen = acc.map docKey →
      (dedup_fold l acc seen).2 = ((dedup_fold l acc seen).1).map docKey := by
  induction l with
  | nil => intro acc seen h; simpa [dedup_fold] using h
  | cons d ds ih =>
      intro acc seen h
      simp only [dedup_fold]
      by_cases hm : pyStrip d.page_content ∈ seen
      · simp only [hm, if_true]; exact ih acc seen h
      · simp only [hm, if_false]
        exact ih (acc ++ [d]) (seen ++ [pyStrip d.page_content]) (by simp [h, docKey])

/-- Deduplication keeps the accumulated keys duplicate-free. -/
theorem dedup_fold_nodup (l : List Doc) :
    ∀ (acc : List Doc) (seen : List String), seen = acc.map docKey →
      (acc.map docKey).Nodup → (((dedup_fold l acc seen).1).map docKey).Nodup := by
  induction l with
  | nil => intro acc seen h hn; simpa [dedup_fold] using hn
  | cons d ds ih =>
      intro acc seen h hn
      simp only [dedup_fold]
      by_cases hm : pyStrip d.page_content ∈ seen
      · simp only [hm, if_true]; exact ih acc seen h hn
      · simp only [hm, if_false]
        refine ih (acc ++ [d]) (seen ++ [pyStrip d.page_content]) (by simp [h, docKey]) ?_
        rw [List.map_append]
        refine List.Nodup.append hn (by simp) ?_
        intro x hx hy
        simp only [List.map_cons, List.map_nil, List.mem_singleton] at hy
        subst hy
        subst h
        exact hm (by simpa [docKey] using hx)

/-- The seen set only grows. -/
theorem dedup_fold_seen_mono (l : List Doc) :
    ∀ (acc : List Doc) (seen : List String) (x : String), x ∈ seen →
      x ∈ (dedup_fold l acc seen).2 := by
  induction l with
  | nil => intro acc seen x hx; simpa [dedup_fold] using hx
  | cons d ds ih =>
      intro acc seen x hx
      simp only [dedup_fold]
      by_cases hm : pyStrip d.page_content ∈ seen
      · simp only [hm, if_true]; exact ih acc seen x hx
      · simp only [hm, if_false]
        exact ih (acc ++ [d]) (seen ++ [pyStrip d.page_content]) x (by simp [hx])

/-- Every processed document's key ends up in the seen set: no passage is
dropped for any reason other than having been seen. -/
theorem dedup_fold_covers (l : List Doc) :
    ∀ (acc : List Doc) (seen : List String) (d : Doc), d ∈ l →
      docKey d ∈ (dedup_fold l acc seen).2 := by
  induction l with
  | nil => intro acc seen d hd; cases hd
  | cons d' ds ih =>
      intro acc seen d hd
      simp only [dedup_fold]
      rcases List.mem_cons.mp hd with h | h
      · subst h
        by_cases hm : pyStrip d.page_content ∈ seen
        · simp only [hm, if_true]
          exact dedup_fold_seen_mono ds acc seen _ hm
        · simp only [hm, if_false]
          exact dedup_fold_seen_mono ds (acc ++ [d]) (seen ++ [pyStrip d.page_content]) _ (by simp [docKey])
      · by_cases hm : pyStrip d'.page_content ∈ seen
        · simp only [hm, if_true]; exact ih acc seen d h
        · simp only [hm, if_false]
          exact ih (acc ++ [d']) (seen ++ [pyStrip d'.page_content]) d h

/-- Unfolding rule for `M.bind` over `M.pure`. -/
theorem bind_pure_apply (a : α) (f : α → M β) (env : Env) (s : St) :
    M.bind (M.pure a) f env s = f a env s := rfl

/-- Unfolding rule for `callGenerator`. -/
theorem callGenerator_apply (c q : String) (ev : Event) (env : Env) (s : St) :
    callGenerator c q ev env s = (env.gen s.nGen c q, ⟨s.nGen + 1, s.events ++ [ev]⟩) := rfl

/-- Composite step rule: binding a Generator call. -/
theorem bind_gen (ctx q : String) (ev : Event) (f : String → M β) (env : Env) (st : St) :
    M.bind (callGenerator ctx q ev) f env st =
      match env.gen st.nGen ctx q with
      | Except.ok r => f r env ⟨st.nGen + 1, st.events ++ [ev]⟩
      | Except.error e => (Except.error e, ⟨st.nGen + 1, st.events ++ [ev]⟩) := by
  rw [bind_apply, callGenerator_apply]
  cases env.gen st.nGen ctx q <;> rfl

/-- Composite step rule: binding an Evaluator call. -/
theorem bind_eval (q a c : String) (f : Json → M β) (env : Env) (st : St) :
    M.bind (check_answer_quality q a c) f env st =
      f (evalResult env st.nGen q a c) env ⟨st.nGen + 1, st.events ++ [Event.evalGen]⟩ := by
  rw [bind_apply, eval_run]

/-- Composite step rule: binding a Planner call. -/
theorem bind_plan (q : String) (f : List Json → M β) (env : Env) (st : St) :
    M.bind (plan_query_strategy q) f env st =
      f (planResult env st.nGen q) env ⟨st.nGen + 1, st.events ++ [Event.planGen]⟩ := by
  rw [bind_apply, plan_run]

/-- Composite step rule: binding a retrieval-aggregation call. -/
theorem bind_retrieve (queries : List Json) (k : Nat) (f : String → M β) (env : Env) (st : St) :
    M.bind (retrieve_with_multiple_queries queries k) f env st =
      f (if (mergedDocs env k queries).isEmpty then ""
         else combined_context (mergedDocs env k queries)) env
        ⟨st.nGen, st.events ++ queries.map Event.retrieve⟩ := by
  rw [bind_apply, retrieve_run]

/-- Composite step rule: binding a dynamically-typed `get`. -/
theorem bind_pyGet (j : Json) (key : String) (dflt : Json) (f : Json → M β) (env : Env) (st : St) :
    M.bind (pyGet j key dflt) f env st =
      match j with
      | Json.obj kvs => f ((lookupJson kvs key).getD dflt) env st
      | _ => (Except.error "AttributeError: get", st) := by
  cases j <;> rfl

/-- Composite step rule: `get` on a value known to be a dict. -/
theorem bind_pyGet_obj (kvs : List (String × Json)) (key : String) (dflt : Json)
    (f : Json → M β) (env : Env) (st : St) :
    M.bind (pyGet (Json.obj kvs) key dflt) f env st =
      f ((lookupJson kvs key).getD dflt) env st := rfl

/-- Every loop run only appends events, makes at most one answer-generation
Generator call per iteration index in its list, and tags every
answer-generation event with an index from that list. -/
theorem run_iterations_events (env : Env) (q : String) :
    ∀ (iters : List Nat) (a c : String) (last : Nat) (tr : List String) (st : St),
      ∃ δ, ((run_iterations q a c last tr iters) env st).2.events = st.events ++ δ
        ∧ countAG δ ≤ iters.length
        ∧ (∀ i, Event.answerGen i ∈ δ → i ∈ iters) := by
  intro iters
  induction iters with
  | nil =>
      intro a c last tr st
      exact ⟨[], by simp [run_iterations, M.pure], by simp [countAG], by simp⟩
  | cons i rest ih =>
      intro a c last tr st
      simp only [run_iterations]
      rw [bind_pure_apply, bind_gen]
      split
      · next ans hg =>
          by_cases hi : i < max_iterations - 1
          · rw [if_pos hi, bind_pure_apply, bind_eval, bind_pyGet]
            split
            · next kvs hj =>
                rw [hj]
                by_cases hs : pyTruthy ((lookupJson kvs "sufficient").getD (Json.bool true)) = true
                · rw [if_pos hs]
                  refine ⟨[Event.answerGen i, Event.evalGen], by simp [M.pure], ?_, ?_⟩
                  · simp [countAG, isAG, List.countP_cons]
                  · intro n hn
                    simp only [List.mem_cons, List.not_mem_nil, or_false] at hn
                    rcases hn with hn | hn
                    · cases hn; simp
                    · cases hn
                · rw [if_neg hs, bind_pyGet_obj, bind_pure_apply, bind_pyGet_obj]
                  by_cases hr : pyTruthy ((lookupJson kvs "refinement_query").getD (Json.str "")) = true
                  · rw [if_pos hr, bind_pure_apply, bind_retrieve]
                    obtain ⟨δ, h1, h2, h3⟩ := ih ans _ i _
                      ⟨st.nGen + 2, (st.events ++ [Event.answerGen i] ++ [Event.evalGen]) ++ [Event.retrieve ((lookupJson kvs "refinement_query").getD (Json.str ""))]⟩
                    refine ⟨[Event.answerGen i, Event.evalGen, Event.retrieve ((lookupJson kvs "refinement_query").getD (Json.str ""))] ++ δ, ?_, ?_, ?_⟩
                    · exact h1.trans (by simp)
                    · have : countAG ([Event.answerGen i, Event.evalGen, Event.retrieve ((lookupJson kvs "refinement_query").getD (Json.str ""))] ++ δ) = 1 + countAG δ := by
                        simp [countAG, isAG, List.countP_cons, List.countP_append, Nat.add_comm]
                      rw [this]
                      simpa [Nat.add_comm] using Nat.add_le_add_left h2 1
                    · intro n hn
                      simp only [List.mem_append, List.mem_cons, List.not_mem_nil, or_false] at hn
                      rcases hn with (hn | hn | hn) | hn
                      · cases hn; simp
                      · cases hn
                      · cases hn
                      · exact List.mem_cons_of_mem i (h3 n hn)
                  · rw [if_neg hr]
                    obtain ⟨δ, h1, h2, h3⟩ := ih ans c i _
                      ⟨st.nGen + 2, st.events ++ [Event.answerGen i] ++ [Event.evalGen]⟩
                    refine ⟨[Event.answerGen i, Event.evalGen] ++ δ, ?_, ?_, ?_⟩
                    · exact h1.trans (by simp)
                    · have : countAG ([Event.answerGen i, Event.evalGen] ++ δ) = 1 + countAG δ := by
                        simp [countAG, isAG, List.countP_cons, List.countP_append, Nat.add_comm]
                      rw [this]
                      simpa [Nat.add_comm] using Nat.add_le_add_left h2 1
                    · intro n hn
                      simp only [List.mem_append, List.mem_cons, List.not_mem_nil, or_false] at hn
                      rcases hn with (hn | hn) | hn
                      · cases hn; simp
                      · cases hn
                      · exact List.mem_cons_of_mem i (h3 n hn)
            · next hne =>
                refine ⟨[Event.answerGen i, Event.evalGen], by simp, ?_, ?_⟩
                · simp [countAG, isAG, List.countP_cons]
                · intro n hn
                  simp only [List.mem_cons, List.not_mem_nil, or_false] at hn
                  rcases hn with hn | hn
                  · cases hn; simp
                  · cases hn
          · rw [if_neg hi]
            obtain ⟨δ, h1, h2, h3⟩ := ih ans c i _ ⟨st.nGen + 1, st.events ++ [Event.answerGen i]⟩
            refine ⟨Event.answerGen i :: δ, ?_, ?_, ?_⟩
            · exact h1.trans (by simp)
            · have : countAG (Event.answerGen i :: δ) = 1 + countAG δ := by
                simp [countAG, isAG, List.countP_cons, Nat.add_comm]
              rw [this]
              simpa [Nat.add_comm] using Nat.add_le_add_left h2 1
            · intro n hn
              rcases List.mem_cons.mp hn with hn | hn
              · cases hn; simp
              · exact List.mem_cons_of_mem i (h3 n hn)
      · next e hg =>
          refine ⟨[Event.answerGen i], rfl, ?_, ?_⟩
          · simp [countAG, isAG, List.countP_cons]
          · intro n hn
            simp only [List.mem_cons, List.not_mem_nil, or_false] at hn
            cases hn; simp

/-- When the loop returns normally, the reported last iteration index is
either the initial value (empty iteration list) or one of the listed
indices. -/
theorem run_iterations_last (env : Env) (q : String) :
    ∀ (iters : List Nat) (a c : String) (last : Nat) (tr : List String) (st : St)
      (r : String × String × Nat × List String) (s' : St),
      run_iterations q a c last tr iters env st = (Except.ok r, s') →
      r.2.2.1 = last ∨ r.2.2.1 ∈ iters := by
  intro iters
  induction iters with
  | nil =>
      intro a c last tr st r s' h
      have h' := congrArg Prod.fst h
      simp only [run_iterations, M.pure] at h'
      injection h' with h''
      subst h''
      left
      rfl
  | cons i rest ih =>
      intro a c last tr st r s' h
      rw [run_iterations] at h
      rw [bind_pure_apply, bind_gen] at h
      revert h
      split
      · next ans hg =>
          intro h
          by_cases hi : i < max_iterations - 1
          · rw [if_pos hi, bind_pure_apply, bind_eval, bind_pyGet] at h
            revert h
            split
            · next kvs hj =>
                rw [hj]
                intro h
                by_cases hs : pyTruthy ((lookupJson kvs "sufficient").getD (Json.bool true)) = true
                · rw [if_pos hs] at h
                  have h' := congrArg Prod.fst h
                  simp only [M.pure] at h'
                  injection h' with h''
                  subst h''
                  right
                  simp
                · rw [if_neg hs, bind_pyGet_obj, bind_pure_apply, bind_pyGet_obj] at h
                  by_cases hr : pyTruthy ((lookupJson kvs "refinement_query").getD (Json.str "")) = true
                  · rw [if_pos hr, bind_pure_apply, bind_retrieve] at h
                    rcases ih _ _ _ _ _ _ _ h with h' | h'
                    · right; rw [h']; simp
                    · right; exact List.mem_cons_of_mem i h'
                  · rw [if_neg hr] at h
                    rcases ih _ _ _ _ _ _ _ h with h' | h'
                    · right; rw [h']; simp
                    · right; exact List.mem_cons_of_mem i h'
            · next hne =>
                intro h
                cases h
          · rw [if_neg hi] at h
            rcases ih _ _ _ _ _ _ _ h with h' | h'
            · right; rw [h']; simp
            · right; exact List.mem_cons_of_mem i h'
      · next e hg =>
          intro h
          cases h

/-- An element at a split point is a member of the list. -/
theorem eq_append_cons_mem {α} (a : α) (l l₁ l₂ : List α) (h : l = l₁ ++ a :: l₂) : a ∈ l := by
  subst h; simp

/-- In a list of the form `xs ++ [a]` with `a` not in `xs`, anything after
an occurrence of `a` is empty. -/
theorem last_goodTail {α} (a : α) (xs l₁ l₂ : List α) (h : a ∉ xs)
    (he : xs ++ [a] = l₁ ++ a :: l₂) : l₂ = [] := by
  rcases List.eq_nil_or_concat l₂ with rfl | ⟨ys, y, rfl⟩
  · rfl
  · exfalso
    rw [List.concat_eq_append] at he
    rw [show l₁ ++ a :: (ys ++ [y]) = (l₁ ++ a :: ys) ++ [y] by simp] at he
    obtain ⟨h1, h2⟩ := List.append_inj' he rfl
    injection h2 with h3
    subst h3
    exact h (h1 ▸ (by simp : a ∈ l₁ ++ a :: ys))

/-- For iteration lists that are suffixes of `range 3`, nothing follows an
`answerGen 2` event: the loop emits it last and stops. -/
theorem run_iterations_goodTail (env : Env) (q : String) :
    ∀ (iters : List Nat), (iters = [] ∨ iters = [2] ∨ iters = [1, 2] ∨ iters = [0, 1, 2]) →
    ∀ (a c : String) (last : Nat) (tr : List String) (st : St),
      Event.answerGen 2 ∉ st.events →
      ∀ l₁ l₂, ((run_iterations q a c last tr iters) env st).2.events
          = l₁ ++ Event.answerGen 2 :: l₂ → l₂ = [] := by
  intro iters
  induction iters with
  | nil =>
      intro _ a c last tr st hmem l₁ l₂ heq
      exact absurd (eq_append_cons_mem _ _ _ _ heq) hmem
  | cons i rest ih =>
      intro hshape a c last tr st hmem
      have hi2 : (i = 2 ∧ rest = []) ∨ ((i = 1 ∨ i = 0) ∧ (rest = [2] ∨ rest = [1, 2])) := by
        rcases hshape with h | h | h | h
        · cases h
        · injection h with h1 h2; exact Or.inl ⟨h1, h2⟩
        · injection h with h1 h2; exact Or.inr ⟨Or.inl h1, Or.inl h2⟩
        · injection h with h1 h2; exact Or.inr ⟨Or.inr h1, Or.inr h2⟩
      simp only [run_iterations]
      rw [bind_pure_apply, bind_gen]
      split
      · next ans hg =>
          rcases hi2 with ⟨rfl, rfl⟩ | ⟨hi01, hrest⟩
          · rw [if_neg (by decide)]
            intro l₁ l₂ heq
            refine last_goodTail (Event.answerGen 2) st.events l₁ l₂ hmem ?_
            exact (show st.events ++ [Event.answerGen 2] =
              ((run_iterations q ans c 2
                (tr ++ ["💭 Generating answer (iteration " ++ toString (2 + 1) ++ ")..."]) [] ) env
                ⟨st.nGen + 1, st.events ++ [Event.answerGen 2]⟩).2.events from rfl).trans heq
          · have hilt : i < max_iterations - 1 := by rcases hi01 with rfl | rfl <;> decide
            have hine : Event.answerGen 2 ∉ st.events ++ [Event.answerGen i] ++ [Event.evalGen] := by
              rcases hi01 with rfl | rfl <;> simp [hmem]
            have hshape' : rest = [] ∨ rest = [2] ∨ rest = [1, 2] ∨ rest = [0, 1, 2] := by
              rcases hrest with rfl | rfl
              · exact Or.inr (Or.inl rfl)
              · exact Or.inr (Or.inr (Or.inl rfl))
            rw [if_pos hilt, bind_pure_apply, bind_eval, bind_pyGet]
            split
            · next kvs hj =>
                rw [hj]
                by_cases hs : pyTruthy ((lookupJson kvs "sufficient").getD (Json.bool true)) = true
                · rw [if_pos hs]
                  intro l₁ l₂ heq
                  exact absurd (eq_append_cons_mem _ _ _ _ heq) hine
                · rw [if_neg hs, bind_pyGet_obj, bind_pure_apply, bind_pyGet_obj]
                  by_cases hr : pyTruthy ((lookupJson kvs "refinement_query").getD (Json.str "")) = true
                  · rw [if_pos hr, bind_pure_apply, bind_retrieve]
                    refine ih hshape' _ _ _ _
                      ⟨st.nGen + 2, (st.events ++ [Event.answerGen i] ++ [Event.evalGen])
                        ++ [Event.retrieve ((lookupJson kvs "refinement_query").getD (Json.str ""))]⟩ ?_
                    simpa using hine
                  · rw [if_neg hr]
                    exact ih hshape' _ _ _ _
                      ⟨st.nGen + 2, st.events ++ [Event.answerGen i] ++ [Event.evalGen]⟩ hine
            · next hne =>
                intro l₁ l₂ heq
                exact absurd (eq_append_cons_mem _ _ _ _ heq) hine
      · next e hg =>
          rcases hi2 with ⟨rfl, rfl⟩ | ⟨hi01, hrest⟩
          · intro l₁ l₂ heq
            exact last_goodTail (Event.answerGen 2) st.events l₁ l₂ hmem heq
          · intro l₁ l₂ heq
            have hine : Event.answerGen 2 ∉ st.events ++ [Event.answerGen i] := by
              rcases hi01 with rfl | rfl <;> simp [hmem]
            exact absurd (eq_append_cons_mem _ _ _ _ heq) hine

/-- Associativity of `M.bind`, pointwise. -/
theorem bind_assoc_apply (x : M α) (f : α → M β) (g : β → M γ) (env : Env) (s : St) :
    M.bind (M.bind x f) g env s = M.bind x (fun a => M.bind (f a) g) env s := by
  simp only [M.bind]
  rcases hx : x env s with ⟨v, s'⟩
  cases v <;> rfl

/-- Every successful `answer()` result is either the no-context short-circuit
payload (which has no `sub_queries` key) or a generation-path `final_payload`
whose iteration index is below `max_iterations` and whose `sub_queries` list
is the planned list (planning on) or `[question]` (planning off). -/
theorem answer_ok_shape (env : Env) (q : String) (up : Bool)
    (res : List (String × PyObj)) (s' : St)
    (h : runAnswer env q up = (Except.ok res, s')) :
    (∃ tr, res = short_payload tr) ∨
    (∃ a ctxF it tr sq, res = final_payload a ctxF it tr sq up ∧ it < max_iterations
      ∧ (up = true → sq = planResult env 0 q) ∧ (up = false → sq = [Json.str q])) := by
  cases up
  · rw [runAnswer, answer] at h
    rw [if_neg (by decide), bind_pure_apply, bind_pure_apply, bind_retrieve] at h
    simp only [init_st] at h
    by_cases hc : (if (mergedDocs env 3 [Json.str q]).isEmpty then ""
        else combined_context (mergedDocs env 3 [Json.str q])) = ""
    · rw [if_pos hc] at h
      have h' := congrArg Prod.fst h
      simp only [M.pure] at h'
      injection h' with h''
      exact Or.inl ⟨_, h''.symm⟩
    · rw [if_neg hc, bind_pure_apply, bind_apply] at h
      revert h
      split
      · next r s'' heq =>
          intro h
          have h' := congrArg Prod.fst h
          simp only [M.pure] at h'
          injection h' with h''
          refine Or.inr ⟨r.1, r.2.1, r.2.2.1, _, [Json.str q], h''.symm, ?_, by simp, fun _ => rfl⟩
          rcases run_iterations_last env q _ _ _ _ _ _ _ _ heq with h0 | hmem
          · rw [h0]; decide
          · exact List.mem_range.mp hmem
      · next e s'' heq =>
          intro h
          simp only [Prod.mk.injEq] at h
          exact absurd h.1 (by simp)
  · rw [runAnswer, answer] at h
    rw [if_pos rfl, bind_assoc_apply, bind_plan, bind_pure_apply, bind_pure_apply, bind_retrieve] at h
    simp only [init_st] at h
    by_cases hc : (if (mergedDocs env 3 (planResult env 0 q)).isEmpty then ""
        else combined_context (mergedDocs env 3 (planResult env 0 q))) = ""
    · rw [if_pos hc] at h
      have h' := congrArg Prod.fst h
      simp only [M.pure] at h'
      injection h' with h''
      exact Or.inl ⟨_, h''.symm⟩
    · rw [if_neg hc, bind_pure_apply, bind_apply] at h
      revert h
      split
      · next r s'' heq =>
          intro h
          have h' := congrArg Prod.fst h
          simp only [M.pure] at h'
          injection h' with h''
          refine Or.inr ⟨r.1, r.2.1, r.2.2.1, _, planResult env 0 q, h''.symm, ?_, fun _ => rfl, by simp⟩
          rcases run_iterations_last env q _ _ _ _ _ _ _ _ heq with h0 | hmem
          · rw [h0]; decide
          · exact List.mem_range.mp hmem
      · next e s'' heq =>
          intro h
          simp only [Prod.mk.injEq] at h
          exact absurd h.1 (by simp)

/-- `countAG` distributes over append. -/
theorem countAG_append (l₁ l₂ : List Event) : countAG (l₁ ++ l₂) = countAG l₁ + countAG l₂ :=
  List.countP_append _ _ _

/-- Retrieval events are not answer-generation events. -/
theorem countAG_retrieves (l : List Json) : countAG (l.map Event.retrieve) = 0 := by
  induction l with
  | nil => rfl
  | cons x xs ih => simp [countAG, List.countP_cons, isAG, ih]

/-- No events, no generation calls. -/
theorem countAG_nil : countAG [] = 0 := rfl

/-- A planner call is not an answer-generation call. -/
theorem countAG_planGen : countAG [Event.planGen] = 0 := rfl

/-- Prepending a planner event does not change the generation count. -/
theorem countAG_cons_planGen (l : List Event) : countAG (Event.planGen :: l) = countAG l := by
  simp [countAG, List.countP_cons, isAG]

/-- Prepending a retrieval event does not change the generation count. -/
theorem countAG_cons_retrieve (qj : Json) (l : List Event) :
    countAG (Event.retrieve qj :: l) = countAG l := by
  simp [countAG, List.countP_cons, isAG]

/-- A full `answer()` run makes at most `max_iterations` answer-generation
Generator calls. -/
theorem answer_countAG (env : Env) (q : String) (up : Bool) :
    countAG (runAnswer env q up).2.events ≤ max_iterations := by
  cases up
  · rw [runAnswer, answer]
    rw [if_neg (by decide), bind_pure_apply, bind_pure_apply, bind_retrieve]
    simp only [init_st]
    by_cases hc : (if (mergedDocs env 3 [Json.str q]).isEmpty then ""
        else combined_context (mergedDocs env 3 [Json.str q])) = ""
    · rw [if_pos hc]
      simp [M.pure, countAG_append, countAG_retrieves, countAG_nil, countAG_cons_planGen, countAG_cons_retrieve]
    · rw [if_neg hc, bind_pure_apply, bind_apply]
      obtain ⟨δ, h1, h2, _⟩ := run_iterations_events env q (List.range max_iterations) "" _ 0 _
        ⟨0, [] ++ [Json.str q].map Event.retrieve⟩
      have h2' : countAG δ ≤ max_iterations := by simpa using h2
      split
      · next r s'' heq =>
          have hs : s''.events = ([] ++ [Json.str q].map Event.retrieve) ++ δ := by
            have := congrArg (fun p => p.2.events) heq
            simp only at this
            rw [← this, h1]
          simp only [M.pure, hs]
          simpa [countAG_append, countAG_retrieves, countAG_nil, countAG_cons_planGen, countAG_cons_retrieve] using h2'
      · next e s'' heq =>
          have hs : s''.events = ([] ++ [Json.str q].map Event.retrieve) ++ δ := by
            have := congrArg (fun p => p.2.events) heq
            simp only at this
            rw [← this, h1]
          simp only [hs]
          simpa [countAG_append, countAG_retrieves, countAG_nil, countAG_cons_planGen, countAG_cons_retrieve] using h2'
  · rw [runAnswer, answer]
    rw [if_pos rfl, bind_assoc_apply, bind_plan, bind_pure_apply, bind_pure_apply, bind_retrieve]
    simp only [init_st]
    by_cases hc : (if (mergedDocs env 3 (planResult env 0 q)).isEmpty then ""
        else combined_context (mergedDocs env 3 (planResult env 0 q))) = ""
    · rw [if_pos hc]
      simp [M.pure, countAG_append, countAG_retrieves, countAG_nil, countAG_planGen, countAG_cons_planGen, countAG_cons_retrieve]
    · rw [if_neg hc, bind_pure_apply, bind_apply]
      obtain ⟨δ, h1, h2, _⟩ := run_iterations_events env q (List.range max_iterations) "" _ 0 _
        ⟨0 + 1, ([] ++ [Event.planGen]) ++ (planResult env 0 q).map Event.retrieve⟩
      have h2' : countAG δ ≤ max_iterations := by simpa using h2
      split
      · next r s'' heq =>
          have hs : s''.events = (([] ++ [Event.planGen]) ++ (planResult env 0 q).map Event.retrieve) ++ δ := by
            have := congrArg (fun p => p.2.events) heq
            simp only at this
            rw [← this, h1]
          simp only [M.pure, hs]
          simpa [countAG_append, countAG_retrieves, countAG_nil, countAG_planGen, countAG_cons_planGen, countAG_cons_retrieve] using h2'
      · next e s'' heq =>
          have hs : s''.events = (([] ++ [Event.planGen]) ++ (planResult env 0 q).map Event.retrieve) ++ δ := by
            have := congrArg (fun p => p.2.events) heq
            simp only at this
            rw [← this, h1]
          simp only [hs]
          simpa [countAG_append, countAG_retrieves, countAG_nil, countAG_planGen, countAG_cons_planGen, countAG_cons_retrieve] using h2'

/-- In any `answer()` run, no event at all follows the answer-generation
call of the last allowed loop iteration: in particular, no Evaluator call
occurs on iteration index `max_iterations - 1`. -/
theorem answer_goodTail (env : Env) (q : String) (up : Bool) :
    ∀ l₁ l₂, (runAnswer env q up).2.events
        = l₁ ++ Event.answerGen (max_iterations - 1) :: l₂ → l₂ = [] := by
  intro l₁ l₂ heq
  cases up
  · rw [runAnswer, answer] at heq
    rw [if_neg (by decide), bind_pure_apply, bind_pure_apply, bind_retrieve] at heq
    simp only [init_st] at heq
    by_cases hc : (if (mergedDocs env 3 [Json.str q]).isEmpty then ""
        else combined_context (mergedDocs env 3 [Json.str q])) = ""
    · rw [if_pos hc] at heq
      have := eq_append_cons_mem _ _ _ _ heq
      simp [M.pure] at this
    · rw [if_neg hc, bind_pure_apply, bind_apply] at heq
      revert heq
      split
      · next r s'' heq' =>
          intro heq
          have heq2 : s''.events = l₁ ++ Event.answerGen (max_iterations - 1) :: l₂ := heq
          refine run_iterations_goodTail env q (List.range max_iterations)
            (Or.inr (Or.inr (Or.inr (by decide)))) ""
            (if (mergedDocs env 3 [Json.str q]).isEmpty then "" else combined_context (mergedDocs env 3 [Json.str q])) 0
            (["📋 Using direct query"] ++ ["🔍 Retrieving information..."] ++ ["✅ Retrieved information from multiple sources"])
            ⟨0, [] ++ [Json.str q].map Event.retrieve⟩ (by simp) l₁ l₂ ?_
          rw [heq']
          exact heq2
      · next e s'' heq' =>
          intro heq
          have heq2 : s''.events = l₁ ++ Event.answerGen (max_iterations - 1) :: l₂ := heq
          refine run_iterations_goodTail env q (List.range max_iterations)
            (Or.inr (Or.inr (Or.inr (by decide)))) ""
            (if (mergedDocs env 3 [Json.str q]).isEmpty then "" else combined_context (mergedDocs env 3 [Json.str q])) 0
            (["📋 Using direct query"] ++ ["🔍 Retrieving information..."] ++ ["✅ Retrieved information from multiple sources"])
            ⟨0, [] ++ [Json.str q].map Event.retrieve⟩ (by simp) l₁ l₂ ?_
          rw [heq']
          exact heq2
  · rw [runAnswer, answer] at heq
    rw [if_pos rfl, bind_assoc_apply, bind_plan, bind_pure_apply, bind_pure_apply, bind_retrieve] at heq
    simp only [init_st] at heq
    by_cases hc : (if (mergedDocs env 3 (planResult env 0 q)).isEmpty then ""
        else combined_context (mergedDocs env 3 (planResult env 0 q))) = ""
    · rw [if_pos hc] at heq
      have := eq_append_cons_mem _ _ _ _ heq
      simp [M.pure] at this
    · rw [if_neg hc, bind_pure_apply, bind_apply] at heq
      revert heq
      split
      · next r s'' heq' =>
          intro heq
          have heq2 : s''.events = l₁ ++ Event.answerGen (max_iterations - 1) :: l₂ := heq
          refine run_iterations_goodTail env q (List.range max_iterations)
            (Or.inr (Or.inr (Or.inr (by decide)))) ""
            (if (mergedDocs env 3 (planResult env 0 q)).isEmpty then "" else combined_context (mergedDocs env 3 (planResult env 0 q))) 0
            (["🧠 Planning retrieval strategy...", "📋 Sub-queries: " ++ pyStr (Json.arr (planResult env 0 q))] ++ ["🔍 Retrieving information..."] ++ ["✅ Retrieved information from multiple sources"])
            ⟨0 + 1, ([] ++ [Event.planGen]) ++ (planResult env 0 q).map Event.retrieve⟩ (by simp) l₁ l₂ ?_
          rw [heq']
          exact heq2
      · next e s'' heq' =>
          intro heq
          have heq2 : s''.events = l₁ ++ Event.answerGen (max_iterations - 1) :: l₂ := heq
          refine run_iterations_goodTail env q (List.range max_iterations)
            (Or.inr (Or.inr (Or.inr (by decide)))) ""
            (if (mergedDocs env 3 (planResult env 0 q)).isEmpty then "" else combined_context (mergedDocs env 3 (planResult env 0 q))) 0
            (["🧠 Planning retrieval strategy...", "📋 Sub-queries: " ++ pyStr (Json.arr (planResult env 0 q))] ++ ["🔍 Retrieving information..."] ++ ["✅ Retrieved information from multiple sources"])
            ⟨0 + 1, ([] ++ [Event.planGen]) ++ (planResult env 0 q).map Event.retrieve⟩ (by simp) l₁ l₂ ?_
          rw [heq']
          exact heq2

/-- When the retriever returns no passages for any query, the merged
document list is empty. -/
theorem mergedDocs_nil (env : Env) (k : Nat) (queries : List Json)
    (h : ∀ qq, env.ret qq = Except.ok []) : mergedDocs env k queries = [] := by
  unfold mergedDocs
  have hf : queries.flatMap (retrievedDocs env k) = [] := by
    induction queries with
    | nil => rfl
    | cons x xs ih => simp [List.flatMap_cons, retrievedDocs, h x, ih]
  rw [hf]
  rfl

/-- C5: the merged result of `_retrieve_with_multiple_queries` is built from
`mergedDocs`, whose stripped passage contents are pairwise distinct (each
trimmed content appears at most once across all queries), which is a
subsequence of the concatenated per-query streams in query submission order
containing the trimmed content of every retrieved passage (hence exactly the
first occurrences, in order of first occurrence), and the produced context is
the fixed-delimiter join of at most 10 `Source N:` blocks. -/
theorem claim5_merged_context_dedup_order_cap (env : Env) (st : St) (queries : List Json) (k : Nat) :
    (retrieve_with_multiple_queries queries k env st).1 =
        Except.ok (if (mergedDocs env k queries).isEmpty then ""
                   else combined_context (mergedDocs env k queries))
    ∧ ((mergedDocs env k queries).map docKey).Nodup
    ∧ List.Sublist (mergedDocs env k queries) (queries.flatMap (retrievedDocs env k))
    ∧ (∀ d ∈ queries.flatMap (retrievedDocs env k), docKey d ∈ (mergedDocs env k queries).map docKey)
    ∧ combined_context (mergedDocs env k queries)
        = pyJoin "\n\n---\n\n" (source_blocks (mergedDocs env k queries))
    ∧ (source_blocks (mergedDocs env k queries)).length ≤ 10 := by
  refine ⟨?_, ?_, ?_, ?_, rfl, ?_⟩
  · rw [retrieve_run]
  · exact dedup_fold_nodup _ [] [] rfl (by simp)
  · obtain ⟨l', h1, h2⟩ := dedup_fold_sublist (queries.flatMap (retrievedDocs env k)) [] []
    unfold mergedDocs
    rw [h1]
    simpa using h2
  · intro d hd
    have h := dedup_fold_covers (queries.flatMap (retrievedDocs env k)) [] [] d hd
    rwa [dedup_fold_seen_eq _ [] [] rfl] at h
  · unfold source_blocks
    rw [List.length_map, List.enum_length, List.length_take]
    exact Nat.min_le_left _ _

/-- C10: the concrete Generator `qa_agent.generate_answer` always returns a
string and never propagates an exception of the underlying inference client:
every failure is mapped to a diagnostic string (model-loading, rate-limit,
generic error, or the retries-exhausted message). -/
theorem claim10_generate_answer_never_raises (client : Nat → String → Except String String)
    (context question : String) (max_retries : Nat) :
    ∃ s, generate_answer client context question max_retries = Except.ok s := by
  unfold generate_answer
  generalize user_content context question = content
  generalize List.range max_retries = attempts
  induction attempts with
  | nil => exact ⟨_, rfl⟩
  | cons a rest ih =>
      rw [generate_answer_go]
      split
      · exact ⟨_, rfl⟩
      · split
        · split
          · exact ih
          · exact ⟨_, rfl⟩
        · split
          · exact ⟨_, rfl⟩
          · exact ⟨_, rfl⟩

/-- C2 (amended): `_plan_query_strategy` returns the parsed Generator output
exactly when the cleaned response parses as a JSON array — of any element
types, since the source only checks `isinstance(x, list)` — and returns
`[question]` when the Generator raises, the response does not parse, or the
parsed value is not an array.  The original claim (validation to a sequence
of strings) is refuted by `claim2_counterexample`. -/
theorem claim2_plan_returns_any_parsed_array (env : Env) (st : St) (q : String) :
    (plan_query_strategy q env st).1 = Except.ok
      (match env.gen st.nGen planning_context (planning_prompt q) with
       | Except.error _ => [Json.str q]
       | Except.ok r =>
         match jsonLoads (cleanResponse r) with
         | some (Json.arr xs) => xs
         | _ => [Json.str q]) := by
  rw [plan_run]
  rfl

/-- Counterexample to C2 as stated: on Generator output "[1, 2]" the planner
returns the parsed list of numbers, which is not a sequence of strings and is
not `[question]` either. -/
theorem claim2_counterexample :
    (plan_query_strategy "q" envC2 init_st).1 = Except.ok [Json.num 1, Json.num 2]
    ∧ ([Json.num 1, Json.num 2].all isJsonStr) = false
    ∧ [Json.num 1, Json.num 2] ≠ [Json.str "q"] := by
  refine ⟨rfl, rfl, ?_⟩
  simp

/-- C3: whenever the Evaluator Generator call raises or its cleaned output
fails to parse as JSON, `_check_answer_quality` returns exactly the verdict
`{sufficient: true, missing_info: "", refinement_query: ""}`; in particular
its `sufficient` field is `true` in every such failure case. -/
theorem claim3_evaluator_fail_open (env : Env) (st : St) (q a c : String)
    (h : (∃ e, env.gen st.nGen (pyTake c 500) (evaluation_prompt q a) = Except.error e)
       ∨ (∃ r, env.gen st.nGen (pyTake c 500) (evaluation_prompt q a) = Except.ok r
            ∧ jsonLoads (cleanResponse r) = none)) :
    (check_answer_quality q a c env st).1 = Except.ok defaultVerdict
    ∧ lookupJson [("sufficient", Json.bool true), ("missing_info", Json.str ""),
        ("refinement_query", Json.str "")] "sufficient" = some (Json.bool true) := by
  refine ⟨?_, rfl⟩
  rw [eval_run]
  simp only [evalResult]
  rcases h with ⟨e, he⟩ | ⟨r, hr, hp⟩
  · rw [he]
  · rw [hr]
    simp [hp]

/-- Witness for C3 at a concrete environment whose Generator returns the
unparsable text "not json". -/
theorem claim3_witness :
    ((∃ e, envC3.gen 0 (pyTake "ctx" 500) (evaluation_prompt "q" "a") = Except.error e)
       ∨ (∃ r, envC3.gen 0 (pyTake "ctx" 500) (evaluation_prompt "q" "a") = Except.ok r
            ∧ jsonLoads (cleanResponse r) = none))
    ∧ (check_answer_quality "q" "a" "ctx" envC3 init_st).1 = Except.ok defaultVerdict := by
  have h : (∃ e, envC3.gen 0 (pyTake "ctx" 500) (evaluation_prompt "q" "a") = Except.error e)
       ∨ (∃ r, envC3.gen 0 (pyTake "ctx" 500) (evaluation_prompt "q" "a") = Except.ok r
            ∧ jsonLoads (cleanResponse r) = none) := Or.inr ⟨"not json", rfl, rfl⟩
  exact ⟨h, (claim3_evaluator_fail_open envC3 init_st "q" "a" "ctx" h).1⟩

/-- C1: when retrieval yields zero passages for every sub-query (the merged
context is empty), `answer()` short-circuits: it returns the fixed not-found
payload whose `sources_used` and `iterations` are 0 and whose `answer` is the
fixed message, and the run makes no answer-generation Generator call. -/
theorem claim1_no_context_short_circuit (env : Env) (q : String) (up : Bool)
    (hret : ∀ qq, env.ret qq = Except.ok []) :
    (∃ tr, (runAnswer env q up).1 = Except.ok (short_payload tr))
    ∧ (∀ e ∈ (runAnswer env q up).2.events, ∀ i, e ≠ Event.answerGen i)
    ∧ (∀ tr, lookupKey (short_payload tr) "answer" = some (PyObj.str notFoundMsg)
        ∧ lookupKey (short_payload tr) "sources_used" = some (PyObj.int 0)
        ∧ lookupKey (short_payload tr) "iterations" = some (PyObj.int 0)) := by
  refine ⟨?_, ?_, fun tr => ⟨rfl, rfl, rfl⟩⟩
  · cases up
    · rw [runAnswer, answer]
      rw [if_neg (by decide), bind_pure_apply, bind_pure_apply, bind_retrieve]
      rw [mergedDocs_nil env 3 _ hret]
      rw [if_pos (by simp)]
      exact ⟨_, rfl⟩
    · rw [runAnswer, answer]
      rw [if_pos rfl, bind_assoc_apply, bind_plan, bind_pure_apply, bind_pure_apply, bind_retrieve]
      rw [mergedDocs_nil env 3 _ hret]
      rw [if_pos (by simp)]
      exact ⟨_, rfl⟩
  · cases up
    · rw [runAnswer, answer]
      rw [if_neg (by decide), bind_pure_apply, bind_pure_apply, bind_retrieve]
      rw [mergedDocs_nil env 3 _ hret]
      rw [if_pos (by simp)]
      intro e he i
      simp [M.pure, init_st] at he
      rw [he]
      simp
    · rw [runAnswer, answer]
      rw [if_pos rfl, bind_assoc_apply, bind_plan, bind_pure_apply, bind_pure_apply, bind_retrieve]
      rw [mergedDocs_nil env 3 _ hret]
      rw [if_pos (by simp)]
      intro e he i
      simp [M.pure, init_st] at he
      rcases he with he | ⟨qq, hq, he⟩
      · rw [he]; simp
      · rw [← he]; simp

/-- Witness for C1 at a concrete environment whose retriever always returns
no documents. -/
theorem claim1_witness :
    ((∃ tr, (runAnswer envRetEmpty "q" true).1 = Except.ok (short_payload tr))
    ∧ (∀ e ∈ (runAnswer envRetEmpty "q" true).2.events, ∀ i, e ≠ Event.answerGen i)
    ∧ (∀ tr, lookupKey (short_payload tr) "answer" = some (PyObj.str notFoundMsg)
        ∧ lookupKey (short_payload tr) "sources_used" = some (PyObj.int 0)
        ∧ lookupKey (short_payload tr) "iterations" = some (PyObj.int 0))) :=
  claim1_no_context_short_circuit envRetEmpty "q" true (fun _ => rfl)

/-- C4 (amended): on the generation path the returned payload carries a
`sub_queries` field equal to the planned list when `use_planning` is true and
`None` when it is false; the no-context short-circuit payload has no
`sub_queries` key at all (its `iterations` is 0).  The original claim (the
field is present on every return path) is refuted by
`claim4_counterexample`. -/
theorem claim4_sub_queries_field (env : Env) (q : String) (up : Bool)
    (res : List (String × PyObj)) (s' : St)
    (h : runAnswer env q up = (Except.ok res, s')) :
    (lookupKey res "sub_queries" = none ∧ lookupKey res "iterations" = some (PyObj.int 0))
    ∨ (∃ sq, lookupKey res "sub_queries"
          = some (if up then PyObj.jsonList sq else PyObj.none)
        ∧ (up = true → sq = planResult env 0 q)
        ∧ (up = false → sq = [Json.str q])) := by
  rcases answer_ok_shape env q up res s' h with ⟨tr, rfl⟩ | ⟨a, ctx, it, tr, sq, rfl, _, hsq, hsq'⟩
  · exact Or.inl ⟨rfl, rfl⟩
  · exact Or.inr ⟨sq, rfl, hsq, hsq'⟩

/-- Counterexample to C4 as stated: with planning on and a retriever that
finds nothing, the returned payload lacks the `sub_queries` key entirely. -/
theorem claim4_counterexample :
    (runAnswer envRetEmpty "q" true).1 = Except.ok C4res
    ∧ lookupKey C4res "sub_queries" = none
    ∧ lookupKey C4res "iterations" = some (PyObj.int 0) :=
  ⟨rfl, rfl, rfl⟩

/-- Witness for C4 (amended) at a concrete run that reaches generation with
`use_planning = false`. -/
theorem claim4_witness :
    (lookupKey C4wres "sub_queries" = none ∧ lookupKey C4wres "iterations" = some (PyObj.int 0))
    ∨ (∃ sq, lookupKey C4wres "sub_queries"
          = some (if false then PyObj.jsonList sq else PyObj.none)
        ∧ (false = true → sq = planResult envB 0 "q")
        ∧ (false = false → sq = [Json.str "q"])) :=
  claim4_sub_queries_field envB "q" false C4wres (runAnswer envB "q" false).2 rfl

/-- C6 (amended): every generation-path payload is a `final_payload`, whose
reported `sources_used` equals the number of segments obtained by splitting
the final context on the bare substring `"---"` — not on the full delimiter
`"\n\n---\n\n"` as the original claim stated, which is refuted by
`claim6_counterexample` (a passage whose text contains `---` is
double-counted). -/
theorem claim6_sources_used_bare_dash_split :
    (∀ a ctxF it tr sq up, lookupKey (final_payload a ctxF it tr sq up) "sources_used"
        = some (PyObj.int ((pySplit ctxF "---").length)))
    ∧ (∀ env q up res s', runAnswer env q up = (Except.ok res, s') →
        lookupKey res "iterations" ≠ some (PyObj.int 0) →
        ∃ a ctxF it tr sq, res = final_payload a ctxF it tr sq up) := by
  constructor
  · intro a ctxF it tr sq up
    rfl
  · intro env q up res s' h hne
    rcases answer_ok_shape env q up res s' h with ⟨tr, rfl⟩ | ⟨a, ctx, it, tr, sq, rfl, _, _, _⟩
    · exact absurd rfl hne
    · exact ⟨a, ctx, it, tr, sq, rfl⟩

/-- Counterexample to C6 as stated: a run whose single retrieved passage is
"a---b" reports `sources_used = 2` (split on `"---"`), while splitting the
final context on the delimiter `"\n\n---\n\n"` yields a single segment. -/
theorem claim6_counterexample :
    (runAnswer envC6 "q" false).1
      = Except.ok (final_payload "ans" "Source 1:\na---b" 0 C6trace [Json.str "q"] false)
    ∧ (pySplit "Source 1:\na---b" "---").length = 2
    ∧ (pySplit "Source 1:\na---b" "\n\n---\n\n").length = 1
    ∧ lookupKey (final_payload "ans" "Source 1:\na---b" 0 C6trace [Json.str "q"] false)
        "sources_used" = some (PyObj.int 2)
    ∧ (2 : Nat) ≠ 1 :=
  ⟨rfl, rfl, rfl, rfl, by decide⟩

/-- Witness for C6 (amended): the concrete `envC6` generation-path result is
a `final_payload`. -/
theorem claim6_witness :
    ∃ a ctxF it tr sq, C6res = final_payload a ctxF it tr sq false := by
  refine claim6_sources_used_bare_dash_split.2 envC6 "q" false C6res
    (runAnswer envC6 "q" false).2 rfl ?_
  intro hfalse
  rw [show lookupKey C6res "iterations" = some (PyObj.int 1) from rfl] at hfalse
  simp at hfalse

/-- C7: every `answer()` run makes at most `max_iterations = 3`
answer-generation Generator calls, and every successful payload reports
either `iterations = 0` (the no-context short-circuit) or an `iterations`
value between 1 and 3 — so between 1 and 3 whenever context was found. -/
theorem claim7_iteration_and_generation_bound (env : Env) (q : String) (up : Bool) :
    countAG (runAnswer env q up).2.events ≤ max_iterations
    ∧ (∀ res s', runAnswer env q up = (Except.ok res, s') →
        lookupKey res "iterations" = some (PyObj.int 0)
        ∨ ∃ n, lookupKey res "iterations" = some (PyObj.int n) ∧ 1 ≤ n ∧ n ≤ max_iterations) := by
  refine ⟨answer_countAG env q up, ?_⟩
  intro res s' h
  rcases answer_ok_shape env q up res s' h with ⟨tr, rfl⟩ | ⟨a, ctx, it, tr, sq, rfl, hit, _, _⟩
  · exact Or.inl rfl
  · exact Or.inr ⟨it + 1, rfl, Nat.succ_le_succ (Nat.zero_le it), Nat.succ_le_of_lt hit⟩

/-- Witness for C7 at a concrete single-iteration run. -/
theorem claim7_witness :
    countAG (runAnswer envB "q" false).2.events ≤ max_iterations
    ∧ (lookupKey C4wres "iterations" = some (PyObj.int 0)
        ∨ ∃ n, lookupKey C4wres "iterations" = some (PyObj.int n) ∧ 1 ≤ n ∧ n ≤ max_iterations) :=
  ⟨(claim7_iteration_and_generation_bound envB "q" false).1,
   (claim7_iteration_and_generation_bound envB "q" false).2 C4wres
     (runAnswer envB "q" false).2 rfl⟩

/-- C8: in every `answer()` run, nothing follows the answer-generation call
of loop iteration index `max_iterations - 1`: the last allowed iteration
makes no Evaluator call and terminates the loop with the current answer. -/
theorem claim8_last_iteration_skips_evaluation (env : Env) (q : String) (up : Bool) :
    ∀ l₁ l₂, (runAnswer env q up).2.events
        = l₁ ++ Event.answerGen (max_iterations - 1) :: l₂ →
      l₂ = [] ∧ Event.evalGen ∉ l₂ := by
  intro l₁ l₂ h
  have h2 := answer_goodTail env q up l₁ l₂ h
  exact ⟨h2, by rw [h2]; simp⟩

/-- Witness for C8 at a concrete run that reaches the last iteration (the
Evaluator keeps answering insufficient with an empty refinement query). -/
theorem claim8_witness :
    (runAnswer envC8 "q" false).2.events
      = [Event.retrieve (Json.str "q"), Event.answerGen 0, Event.evalGen,
         Event.answerGen 1, Event.evalGen] ++ Event.answerGen (max_iterations - 1) :: []
    ∧ (([] : List Event) = [] ∧ Event.evalGen ∉ ([] : List Event)) :=
  ⟨rfl, claim8_last_iteration_skips_evaluation envC8 "q" false
    [Event.retrieve (Json.str "q"), Event.answerGen 0, Event.evalGen,
     Event.answerGen 1, Event.evalGen] [] rfl⟩

/-- C9: there is Generator output for the evaluation prompt — the valid
JSON array "[1]" — on which `_check_answer_quality` returns the parsed
non-dict value unvalidated, and the subsequent `evaluation.get("sufficient",
True)` in `answer()` raises an `AttributeError` that propagates out of
`answer()`: the fail-open default covers only parsing exceptions, not
well-formed JSON of the wrong shape. -/
theorem claim9_nondict_verdict_escapes :
    (check_answer_quality "q" "ans" "Source 1:\ndoc" envC9 ⟨1, []⟩).1
      = Except.ok (Json.arr [Json.num 1])
    ∧ (runAnswer envC9 "q" false).1 = Except.error "AttributeError: get" :=
  ⟨rfl, rfl⟩
